import Mathlib

/-!
Shallow embedding of the regression pipeline of `src/python/ml_runner.py`
(function `process_csv`) together with the collaborator capabilities it
calls into (train/test splitting, ordinary-least-squares fitting and the
three fit metrics, which the script takes from a library whose code is not
part of this repository and which are therefore modelled from the spec,
each marked `Modelled from the spec:` below).

Tables are row-major: a header of named, typed columns (type inference is
performed by the external loader, so every column carries its declared
kind), plus a list of rows of cells.  Numeric cell values are rationals:
the claims under study are about counts, names, partitions and exact
metric identities, none of which depend on floating-point rounding.
-/

namespace MLRunner

/-- A single cell of a loaded table: a numeric value, a non-numeric value,
or a missing value (NA / null). -/
inductive Cell
  | num (q : ℚ)
  | txt (s : String)
  | na
  deriving DecidableEq

/-- Declared kind of a column, produced by the loader's type inference
(spec §9: an explicit typed-column tagged variant, Numeric | Other). -/
inductive ColKind
  | numeric
  | nonNumeric
  deriving DecidableEq

/-- A header entry: column name plus its declared kind. -/
structure HeaderCol where
  name : String
  kind : ColKind
  deriving DecidableEq

/-- A loaded table: ordered named, typed columns and a list of rows. -/
structure Table where
  header : List HeaderCol
  rows : List (List Cell)
  deriving DecidableEq

/-- `df.dropna()`: keep exactly the rows that contain no missing value in
any column (numeric or not). -/
def cleanRows (t : Table) : List (List Cell) :=
  t.rows.filter (fun r => r.all (fun c => c != Cell.na))

/-- `df_clean.select_dtypes(include=[np.number]).columns.tolist()`: the
names of the numeric columns, in original column order (dropping rows does
not change a column's declared dtype). -/
def numericNames (t : Table) : List String :=
  (t.header.filter (fun c => c.kind == ColKind.numeric)).map (fun c => c.name)

/-- The cells of one row belonging to numeric columns, in original column
order (`df_clean[numeric_columns]` restricted to that row). -/
def numericCells (t : Table) (r : List Cell) : List Cell :=
  ((t.header.zip r).filter (fun p => p.1.kind == ColKind.numeric)).map (fun p => p.2)

/-- Numeric payload of a cell (0 as a don't-care default for the
ill-typed case of a non-numeric cell inside a numeric column). -/
def cellVal : Cell → ℚ
  | Cell.num q => q
  | _ => 0

/-- One cleaned row restricted to its numeric columns, as rationals. -/
def numericVals (t : Table) (r : List Cell) : List ℚ :=
  (numericCells t r).map cellVal

/-- `feature_columns = numeric_columns[:-1]`. -/
def feature_columns (t : Table) : List String :=
  (numericNames t).dropLast

/-- `target_column = numeric_columns[-1]`. -/
def target_column (t : Table) : String :=
  (numericNames t).getLastD ""

/-- All cleaned rows restricted to numeric columns (`df_numeric`). -/
def numericRows (t : Table) : List (List ℚ) :=
  (cleanRows t).map (numericVals t)

/-- `X = df_numeric[feature_columns]`: every numeric column but the last. -/
def Xmat (t : Table) : List (List ℚ) :=
  (numericRows t).map List.dropLast

/-- `y = df_numeric[target_column]`: the last numeric column. -/
def yvec (t : Table) : List ℚ :=
  (numericRows t).map (fun r => r.getLastD 0)

/-- Modelled from the spec: the library pseudo-random generator behind
`train_test_split(..., random_state=42)` is not part of this repository;
the spec only requires a reproducible pseudo-random permutation seeded by
the fixed seed, realised here by a linear congruential generator. -/
def lcg (s : ℕ) : ℕ :=
  (1103515245 * s + 12345) % 2147483648

/-- Selection shuffle driven by `lcg`: repeatedly pick the `s % length`-th
remaining element.  The fuel argument equals the list length at every
outer call. -/
def shuffleAux : ℕ → ℕ → List ℕ → List ℕ
  | 0, _, _ => []
  | fuel + 1, s, l =>
    if h : l = [] then []
    else
      l.get ⟨s % l.length, Nat.mod_lt _ (List.length_pos.mpr h)⟩ ::
        shuffleAux fuel (lcg s) (l.eraseIdx (s % l.length))

/-- Modelled from the spec: the reproducible pseudo-random permutation of
the row indices `0, …, n−1` produced by the Splitter for a given seed. -/
def permIndices (seed n : ℕ) : List ℕ :=
  shuffleAux n seed (List.range n)

/-- Modelled from the spec: the TRAIN subset size, `round(n * 0.8)`,
computed in natural arithmetic as `⌊(8n + 5) / 10⌋`; the agreement with
`round (0.8 * n)` over `ℚ` is proved in `trainSize_eq_round` below. -/
def trainSize (n : ℕ) : ℕ :=
  (8 * n + 5) / 10

/-- Modelled from the spec: the first `round(n * 0.8)` permuted indices go
to TRAIN. -/
def trainIndices (seed n : ℕ) : List ℕ :=
  (permIndices seed n).take (trainSize n)

/-- Modelled from the spec: the remaining permuted indices go to TEST. -/
def testIndices (seed n : ℕ) : List ℕ :=
  (permIndices seed n).drop (trainSize n)

/-- `X_train`: feature rows selected by the TRAIN indices. -/
def X_train (t : Table) : List (List ℚ) :=
  (trainIndices 42 (Xmat t).length).map (fun i => (Xmat t).getD i [])

/-- `X_test`: feature rows selected by the TEST indices. -/
def X_test (t : Table) : List (List ℚ) :=
  (testIndices 42 (Xmat t).length).map (fun i => (Xmat t).getD i [])

/-- `y_train`: target values selected by the TRAIN indices. -/
def y_train (t : Table) : List ℚ :=
  (trainIndices 42 (Xmat t).length).map (fun i => (yvec t).getD i 0)

/-- `y_test`: target values selected by the TEST indices. -/
def y_test (t : Table) : List ℚ :=
  (testIndices 42 (Xmat t).length).map (fun i => (yvec t).getD i 0)

/-- Dot product of two equal-length vectors. -/
def dot (u v : List ℚ) : ℚ :=
  ((u.zip v).map (fun p => p.1 * p.2)).sum

/-- Determinant of a square matrix given as a list of rows, by Laplace
expansion along the first row; structurally recursive on a fuel argument
that bounds the matrix size. -/
def detAux : ℕ → List (List ℚ) → ℚ
  | 0, _ => 1
  | _ + 1, [] => 1
  | fuel + 1, r :: rest =>
    (List.range r.length).foldr
      (fun j acc =>
        (-1) ^ j * r.getD j 0 * detAux fuel (rest.map (fun row => row.eraseIdx j)) + acc)
      0

/-- Determinant of a square matrix given as a list of rows. -/
def det (A : List (List ℚ)) : ℚ :=
  detAux A.length A

/-- The matrix `A` with column `i` replaced by the vector `b`. -/
def replaceCol (A : List (List ℚ)) (b : List ℚ) (i : ℕ) : List (List ℚ) :=
  (A.zip b).map (fun p => p.1.set i p.2)

/-- Cramer-rule solution of the square system `A x = b`; the
rank-deficient case is left open by the spec (§9) and resolved here by
returning the zero vector. -/
def cramerSolve (A : List (List ℚ)) (b : List ℚ) : List ℚ :=
  if det A = 0 then A.map (fun _ => 0)
  else (List.range A.length).map (fun i => det (replaceCol A b i) / det A)

/-- Column `j` of a row-major matrix. -/
def colOf (M : List (List ℚ)) (j : ℕ) : List ℚ :=
  M.map (fun r => r.getD j 0)

/-- Each feature row prefixed with the constant-1 intercept feature. -/
def withIntercept (X : List (List ℚ)) : List (List ℚ) :=
  X.map (fun r => 1 :: r)

/-- Modelled from the spec: the library `LinearRegression.fit` is not part
of this repository; the spec requires the ordinary-least-squares solution
(closed form acceptable), computed here from the normal equations
`(MᵀM) β = Mᵀy` with `M` the intercept-augmented design matrix.  Returns
the coefficient vector `(intercept, coefficients…)`. -/
def fitLinReg (X : List (List ℚ)) (y : List ℚ) : List ℚ :=
  let M := withIntercept X
  let p := (M.headD []).length
  cramerSolve
    ((List.range p).map (fun i => (List.range p).map (fun j => dot (colOf M i) (colOf M j))))
    ((List.range p).map (fun i => dot (colOf M i) y))

/-- Modelled from the spec: `predict` returns
`intercept + Σ coefficientᵢ · featureᵢ` for each row. -/
def predict (beta : List ℚ) (X : List (List ℚ)) : List ℚ :=
  X.map (fun x => dot beta (1 :: x))

/-- Arithmetic mean of a list of rationals (0 on the empty list, which the
pipeline never produces). -/
def mean (l : List ℚ) : ℚ :=
  l.sum / l.length

/-- Modelled from the spec: `MAE = mean(|actual − pred|)`. -/
def mean_absolute_error (actual pred : List ℚ) : ℚ :=
  mean ((actual.zip pred).map (fun p => |p.1 - p.2|))

/-- Modelled from the spec: `MSE = mean((actual − pred)²)`. -/
def mean_squared_error (actual pred : List ℚ) : ℚ :=
  mean ((actual.zip pred).map (fun p => (p.1 - p.2) ^ 2))

/-- Modelled from the spec: `R² = 1 − Σ(actual−pred)² / Σ(actual−mean(actual))²`
(the zero-denominator case is undefined in the source per spec §9; the
total convention `q / 0 = 0` of `ℚ` is used for it here). -/
def r2_score (actual pred : List ℚ) : ℚ :=
  1 - ((actual.zip pred).map (fun p => (p.1 - p.2) ^ 2)).sum /
      (actual.map (fun a => (a - mean actual) ^ 2)).sum

/-- The `dataset_info` part of the result record. -/
structure DatasetInfo where
  total_rows : ℕ
  rows_after_cleaning : ℕ
  feature_columns : ℕ
  target_column : String
  feature_names : List String
  train_size : ℕ
  test_size : ℕ
  deriving DecidableEq, Inhabited

/-- The result record assembled on success. -/
structure Results where
  r2_score : ℚ
  mae : ℚ
  mse : ℚ
  dataset_info : DatasetInfo
  deriving DecidableEq, Inhabited

instance {ε α : Type} [DecidableEq ε] [DecidableEq α] : DecidableEq (Except ε α) := fun a b =>
  match a, b with
  | Except.ok x, Except.ok y =>
    if h : x = y then Decidable.isTrue (by rw [h]) else Decidable.isFalse (by simp [h])
  | Except.error x, Except.error y =>
    if h : x = y then Decidable.isTrue (by rw [h]) else Decidable.isFalse (by simp [h])
  | Except.ok _, Except.error _ => Decidable.isFalse (by simp)
  | Except.error _, Except.ok _ => Decidable.isFalse (by simp)

/-- The message of the `InsufficientColumns` gate, verbatim from the source. -/
def insufficientColumnsMsg : String :=
  "Dataset must have at least 2 numeric columns for regression analysis"

/-- The message of the `InsufficientSamples` gate, verbatim from the source. -/
def insufficientSamplesMsg : String :=
  "Dataset must have at least 10 samples after cleaning"

/-- The catch-all wrapping at the pipeline boundary:
`raise Exception(f"ML processing error: {str(e)}")`. -/
def wrapMsg (m : String) : String :=
  "ML processing error: " ++ m

/-- The predictions on the TEST rows. -/
def y_pred (t : Table) : List ℚ :=
  predict (fitLinReg (X_train t) (y_train t)) (X_test t)

/-- The success record assembled by `process_csv`. -/
def results (t : Table) : Results :=
  { r2_score := r2_score (y_test t) (y_pred t)
    mae := mean_absolute_error (y_test t) (y_pred t)
    mse := mean_squared_error (y_test t) (y_pred t)
    dataset_info :=
      { total_rows := t.rows.length
        rows_after_cleaning := (cleanRows t).length
        feature_columns := (feature_columns t).length
        target_column := target_column t
        feature_names := feature_columns t
        train_size := (X_train t).length
        test_size := (X_test t).length } }

/-- `process_csv` on an already-loaded table: the two validation gates in
source order (columns first, then samples, the latter on `len(X)`), then
split, fit, predict, metrics, and the assembled record; every raised error
is re-wrapped at the boundary by `wrapMsg`. -/
def processTable (t : Table) : Except String Results :=
  if (numericNames t).length < 2 then
    Except.error (wrapMsg insufficientColumnsMsg)
  else if (Xmat t).length < 10 then
    Except.error (wrapMsg insufficientSamplesMsg)
  else
    Except.ok (results t)

/-! ### Helper lemmas -/

/-- `trainSize` agrees with the spec's `round(n * 0.8)` computed over `ℚ`. -/
theorem trainSize_eq_round (n : ℕ) : (trainSize n : ℤ) = round ((0.8 : ℚ) * n) := by
  rw [round_eq]
  have h : (0.8 : ℚ) * n + 1 / 2 = ((8 * n + 5 : ℕ) : ℚ) / ((10 : ℕ) : ℚ) := by
    push_cast
    ring
  rw [h, Rat.floor_natCast_div_natCast]
  unfold trainSize
  omega

/-- The TRAIN size never exceeds the row count. -/
theorem trainSize_le (n : ℕ) : trainSize n ≤ n := by
  unfold trainSize
  omega

/-- Taking out the `i`-th element and putting it in front permutes a list. -/
theorem get_cons_eraseIdx_perm : ∀ (l : List ℕ) (i : Fin l.length),
    List.Perm (l.get i :: l.eraseIdx i) l
  | a :: t, ⟨0, _⟩ => by simp
  | a :: t, ⟨i + 1, h⟩ => by
    have ih := get_cons_eraseIdx_perm t ⟨i, Nat.lt_of_succ_lt_succ h⟩
    exact (List.Perm.swap a _ _).trans (ih.cons a)

/-- The selection shuffle permutes its input whenever it has enough fuel. -/
theorem shuffleAux_perm : ∀ (fuel s : ℕ) (l : List ℕ), l.length ≤ fuel →
    List.Perm (shuffleAux fuel s l) l := by
  intro fuel
  induction fuel with
  | zero =>
    intro s l h
    have hl : l = [] := List.length_eq_zero.mp (Nat.le_zero.mp h)
    subst hl
    simp [shuffleAux]
  | succ k ih =>
    intro s l h
    rw [shuffleAux]
    split
    · rename_i hl
      subst hl
      simp
    · rename_i hl
      have hp : 0 < l.length := List.length_pos.mpr hl
      have hlen : (l.eraseIdx (s % l.length)).length ≤ k := by
        rw [List.length_eraseIdx]
        rw [if_pos (Nat.mod_lt _ hp)]
        omega
      exact ((ih (lcg s) _ hlen).cons _).trans (get_cons_eraseIdx_perm l _)

/-- The Splitter's permutation really is a permutation of `0, …, n−1`. -/
theorem permIndices_perm (seed n : ℕ) :
    List.Perm (permIndices seed n) (List.range n) :=
  shuffleAux_perm n seed (List.range n) (by simp)

/-- The Splitter's permutation has length `n`. -/
theorem permIndices_length (seed n : ℕ) : (permIndices seed n).length = n := by
  have := (permIndices_perm seed n).length_eq
  simpa using this

/-- The Splitter's permutation has no duplicate indices. -/
theorem permIndices_nodup (seed n : ℕ) : (permIndices seed n).Nodup :=
  ((permIndices_perm seed n).nodup_iff).mpr (List.nodup_range n)

/-- TRAIN and TEST indices are disjoint and together permute `0, …, n−1`. -/
theorem split_indices_partition (seed n : ℕ) :
    List.Disjoint (trainIndices seed n) (testIndices seed n) ∧
      List.Perm (trainIndices seed n ++ testIndices seed n) (List.range n) := by
  have hsplit : trainIndices seed n ++ testIndices seed n = permIndices seed n :=
    List.take_append_drop _ _
  constructor
  · have hnd : (trainIndices seed n ++ testIndices seed n).Nodup := by
      rw [hsplit]
      exact permIndices_nodup seed n
    exact (List.nodup_append.mp hnd).2.2
  · rw [hsplit]
    exact permIndices_perm seed n

/-- There are exactly `trainSize n` TRAIN indices. -/
theorem trainIndices_length (seed n : ℕ) :
    (trainIndices seed n).length = trainSize n := by
  rw [trainIndices, List.length_take, permIndices_length]
  exact Nat.min_eq_left (trainSize_le n)

/-- There are exactly `n - trainSize n` TEST indices. -/
theorem testIndices_length (seed n : ℕ) :
    (testIndices seed n).length = n - trainSize n := by
  rw [testIndices, List.length_drop, permIndices_length]

/-- Selecting the numeric columns does not change the row count. -/
theorem Xmat_length (t : Table) : (Xmat t).length = (cleanRows t).length := by
  simp [Xmat, numericRows]

/-- `X_train` holds one feature row per TRAIN index. -/
theorem X_train_length (t : Table) :
    (X_train t).length = trainSize (Xmat t).length := by
  simp [X_train, trainIndices_length]

/-- `X_test` holds one feature row per TEST index. -/
theorem X_test_length (t : Table) :
    (X_test t).length = (Xmat t).length - trainSize (Xmat t).length := by
  simp [X_test, testIndices_length]

/-- The two wrapped gate messages are distinct, so the message identifies
the gate that fired. -/
theorem wrap_col_ne_sample :
    wrapMsg insufficientColumnsMsg ≠ wrapMsg insufficientSamplesMsg := by
  decide

/-- Inversion of a successful run: both gates passed and the output is the
assembled record. -/
theorem processTable_ok_inv (t : Table) (r : Results)
    (h : processTable t = Except.ok r) :
    2 ≤ (numericNames t).length ∧ 10 ≤ (Xmat t).length ∧ r = results t := by
  unfold processTable at h
  split at h
  · exact Except.noConfusion h
  · split at h
    · exact Except.noConfusion h
    · rename_i hc hs
      injection h with h
      exact ⟨by omega, by omega, h.symm⟩

/-- Dropping the last element and re-appending it is the identity on
non-empty lists, with `getLastD` in place of `getLast`. -/
theorem dropLast_append_getLastD (l : List String) (h : l ≠ []) (d : String) :
    l.dropLast ++ [l.getLastD d] = l := by
  cases l with
  | nil => exact absurd rfl h
  | cons a t =>
    rw [List.getLastD_cons, ← List.getLast_eq_getLastD a t (List.cons_ne_nil a t)]
    exact List.dropLast_append_getLast _

/-- Summing any row-wise-vanishing function over a list zipped with itself
gives zero. -/
theorem zip_self_map_sum_zero (f : ℚ × ℚ → ℚ) (hf : ∀ a : ℚ, f (a, a) = 0) :
    ∀ l : List ℚ, ((l.zip l).map f).sum = 0
  | [] => by simp
  | a :: t => by
    rw [List.zip_cons_cons, List.map_cons, List.sum_cons, hf,
      zip_self_map_sum_zero f hf t]
    ring

/-! ### Concrete tables used to witness the hypotheses of the theorems -/

/-- A well-formed table with two numeric columns `a`, `b`, ten complete
rows and `b = 2a`: passes both validation gates. -/
def wTable : Table :=
  { header := [⟨"a", ColKind.numeric⟩, ⟨"b", ColKind.numeric⟩]
    rows := (List.range 10).map (fun i => [Cell.num i, Cell.num (2 * i)]) }

/-- The record returned by the pipeline on `wTable`. -/
def wRes : Results :=
  results wTable

/-- The pipeline succeeds on `wTable`: both gate conditions are decided
false on the concrete table. -/
theorem processTable_wTable_ok : processTable wTable = Except.ok wRes := by
  unfold processTable
  rw [if_neg (by decide), if_neg (by decide)]
  rfl

/-- A table with a single numeric column and five complete rows: fails the
column gate (and has fewer than ten cleaned rows at the same time). -/
def oneColTable : Table :=
  { header := [⟨"a", ColKind.numeric⟩]
    rows := [[Cell.num 1], [Cell.num 2], [Cell.num 3], [Cell.num 4], [Cell.num 5]] }

/-- A table with two numeric columns but only two rows: passes the column
gate and fails the sample gate. -/
def smallTable : Table :=
  { header := [⟨"a", ColKind.numeric⟩, ⟨"b", ColKind.numeric⟩]
    rows := [[Cell.num 1, Cell.num 2], [Cell.num 2, Cell.num 4]] }

/-! ### The claims -/

/-- C1: for every cleaned dataset of `n` rows that passes both validation
gates, the Splitter assigns exactly `round(n * 0.8)` rows to TRAIN and the
remaining `n - round(n * 0.8)` rows to TEST. -/
theorem splitter_train_test_sizes (t : Table) (r : Results)
    (h : processTable t = Except.ok r) :
    r.dataset_info.train_size =
        (round ((0.8 : ℚ) * r.dataset_info.rows_after_cleaning)).toNat ∧
      r.dataset_info.test_size =
        r.dataset_info.rows_after_cleaning -
          (round ((0.8 : ℚ) * r.dataset_info.rows_after_cleaning)).toNat := by
  obtain ⟨h2, h10, hr⟩ := processTable_ok_inv t r h
  subst hr
  have key : ∀ m : ℕ, (round ((0.8 : ℚ) * m)).toNat = trainSize m := by
    intro m
    rw [← trainSize_eq_round]
    exact Int.toNat_natCast _
  simp only [results]
  rw [key, X_train_length, X_test_length, Xmat_length]
  exact ⟨rfl, rfl⟩

/-- Witness for C1 at a concrete passing table. -/
theorem splitter_train_test_sizes_witness :
    wRes.dataset_info.train_size =
        (round ((0.8 : ℚ) * wRes.dataset_info.rows_after_cleaning)).toNat ∧
      wRes.dataset_info.test_size =
        wRes.dataset_info.rows_after_cleaning -
          (round ((0.8 : ℚ) * wRes.dataset_info.rows_after_cleaning)).toNat :=
  splitter_train_test_sizes wTable wRes processTable_wTable_ok

/-- C2: the pipeline reports the `InsufficientColumns` message exactly
when the cleaned table has fewer than 2 numeric columns; in particular it
is never reported with exactly 2 numeric columns. -/
theorem insufficient_columns_iff (t : Table) :
    processTable t = Except.error (wrapMsg insufficientColumnsMsg) ↔
      (numericNames t).length < 2 := by
  unfold processTable
  split
  · rename_i hc
    simpa using hc
  · rename_i hc
    split
    · rename_i hs
      simp only [Except.error.injEq]
      constructor
      · intro he
        exact absurd he.symm wrap_col_ne_sample
      · intro h2
        exact absurd h2 hc
    · rename_i hs
      constructor
      · intro he
        exact Except.noConfusion he
      · intro h2
        exact absurd h2 hc

/-- C3 as frozen is false on the code: with a single numeric column and
five complete rows the cleaned row count is below 10, yet the pipeline
reports the `InsufficientColumns` message, not `InsufficientSamples`,
because the column gate fires first. -/
theorem insufficient_samples_iff_cex :
    ¬(processTable oneColTable =
        Except.error (wrapMsg insufficientSamplesMsg) ↔
      (cleanRows oneColTable).length < 10) := by
  decide

/-- C3 (amended): for tables with at least 2 numeric columns, the pipeline
reports the `InsufficientSamples` message exactly when the cleaned row
count is below 10; in particular exactly 10 cleaned rows never trigger
it. -/
theorem insufficient_samples_iff (t : Table)
    (h2 : 2 ≤ (numericNames t).length) :
    processTable t = Except.error (wrapMsg insufficientSamplesMsg) ↔
      (cleanRows t).length < 10 := by
  unfold processTable
  split
  · rename_i hc
    exact absurd h2 (by omega)
  · rename_i hc
    split
    · rename_i hs
      simp only [Except.error.injEq, true_iff]
      rw [← Xmat_length t]
      simp [hs]
    · rename_i hs
      constructor
      · intro he
        exact Except.noConfusion he
      · intro hlt
        rw [← Xmat_length t] at hlt
        exact absurd hlt hs

/-- Witness for C3 (amended) at a concrete two-column table. -/
theorem insufficient_samples_iff_witness :
    2 ≤ (numericNames smallTable).length ∧
      (processTable smallTable =
          Except.error (wrapMsg insufficientSamplesMsg) ↔
        (cleanRows smallTable).length < 10) :=
  ⟨by decide, insufficient_samples_iff smallTable (by decide)⟩

/-- C4: on every successful run the designated target column is the last
numeric column in original column order and the features are exactly the
preceding numeric columns in order. -/
theorem selector_last_column_target (t : Table) (r : Results)
    (h : processTable t = Except.ok r) :
    r.dataset_info.feature_names ++ [r.dataset_info.target_column] =
      numericNames t := by
  obtain ⟨h2, _, hr⟩ := processTable_ok_inv t r h
  subst hr
  have hne : numericNames t ≠ [] := by
    intro he
    rw [he] at h2
    simp at h2
  simp only [results]
  unfold feature_columns target_column
  exact dropLast_append_getLastD (numericNames t) hne ""

/-- Witness for C4 at a concrete passing table. -/
theorem selector_last_column_target_witness :
    wRes.dataset_info.feature_names ++ [wRes.dataset_info.target_column] =
      numericNames wTable :=
  selector_last_column_target wTable wRes processTable_wTable_ok

/-- C5: for every successful run the TRAIN and TEST index lists of the
Splitter are disjoint and together they are a permutation of all cleaned
row indices `0, …, n−1`. -/
theorem split_partition (t : Table) (r : Results)
    (h : processTable t = Except.ok r) :
    List.Disjoint (trainIndices 42 r.dataset_info.rows_after_cleaning)
        (testIndices 42 r.dataset_info.rows_after_cleaning) ∧
      List.Perm
        (trainIndices 42 r.dataset_info.rows_after_cleaning ++
          testIndices 42 r.dataset_info.rows_after_cleaning)
        (List.range r.dataset_info.rows_after_cleaning) := by
  obtain ⟨_, _, hr⟩ := processTable_ok_inv t r h
  subst hr
  exact split_indices_partition 42 _

/-- Witness for C5 at a concrete passing table. -/
theorem split_partition_witness :
    List.Disjoint (trainIndices 42 wRes.dataset_info.rows_after_cleaning)
        (testIndices 42 wRes.dataset_info.rows_after_cleaning) ∧
      List.Perm
        (trainIndices 42 wRes.dataset_info.rows_after_cleaning ++
          testIndices 42 wRes.dataset_info.rows_after_cleaning)
        (List.range wRes.dataset_info.rows_after_cleaning) :=
  split_partition wTable wRes processTable_wTable_ok

/-- C6: the pipeline is a deterministic function of its input table — two
runs on the same input produce identical results, and the train/test
partition is a function of the cleaned row count and the fixed seed
alone. -/
theorem pipeline_deterministic (t₁ t₂ : Table) (h : t₁ = t₂) :
    processTable t₁ = processTable t₂ ∧
      trainIndices 42 (cleanRows t₁).length =
        trainIndices 42 (cleanRows t₂).length ∧
      testIndices 42 (cleanRows t₁).length =
        testIndices 42 (cleanRows t₂).length := by
  subst h
  exact ⟨rfl, rfl, rfl⟩

/-- Witness for C6 at a concrete table. -/
theorem pipeline_deterministic_witness :
    processTable wTable = processTable wTable ∧
      trainIndices 42 (cleanRows wTable).length =
        trainIndices 42 (cleanRows wTable).length ∧
      testIndices 42 (cleanRows wTable).length =
        testIndices 42 (cleanRows wTable).length :=
  pipeline_deterministic wTable wTable rfl

/-- C7: whenever every prediction equals the corresponding actual value
(non-empty, row-aligned vectors), R² is exactly 1, MAE exactly 0 and MSE
exactly 0. -/
theorem perfect_prediction_metrics (actual pred : List ℚ)
    (hne : actual ≠ []) (hp : pred = actual) :
    r2_score actual pred = 1 ∧ mean_absolute_error actual pred = 0 ∧
      mean_squared_error actual pred = 0 := by
  subst hp
  have habs : ((pred.zip pred).map (fun p => |p.1 - p.2|)).sum = 0 :=
    zip_self_map_sum_zero _ (fun a => by simp) pred
  have hsq : ((pred.zip pred).map (fun p => (p.1 - p.2) ^ 2)).sum = 0 :=
    zip_self_map_sum_zero _ (fun a => by simp) pred
  refine ⟨?_, ?_, ?_⟩
  · rw [r2_score, hsq, zero_div, sub_zero]
  · rw [mean_absolute_error, mean, habs, zero_div]
  · rw [mean_squared_error, mean, hsq, zero_div]

/-- Witness for C7 at a concrete perfect prediction. -/
theorem perfect_prediction_metrics_witness :
    ([1, 2, 3] : List ℚ) ≠ [] ∧ ([1, 2, 3] : List ℚ) = [1, 2, 3] ∧
      (r2_score [1, 2, 3] [1, 2, 3] = 1 ∧
        mean_absolute_error [1, 2, 3] [1, 2, 3] = 0 ∧
        mean_squared_error [1, 2, 3] [1, 2, 3] = 0) :=
  ⟨by simp, rfl, perfect_prediction_metrics [1, 2, 3] [1, 2, 3] (by simp) rfl⟩

/-- C8: every error leaving the pipeline carries the boundary wrapping and
its message is the wrap of exactly one of the two distinct stage messages,
so the message identifies the failing stage; the pipeline is a one-shot
function, so nothing is retried. -/
theorem error_wrapped_with_stage (t : Table) (m : String)
    (h : processTable t = Except.error m) :
    (m = wrapMsg insufficientColumnsMsg ∨
        m = wrapMsg insufficientSamplesMsg) ∧
      wrapMsg insufficientColumnsMsg ≠ wrapMsg insufficientSamplesMsg := by
  refine ⟨?_, wrap_col_ne_sample⟩
  unfold processTable at h
  split at h
  · injection h with h
    exact Or.inl h.symm
  · split at h
    · injection h with h
      exact Or.inr h.symm
    · exact Except.noConfusion h

/-- Witness for C8 at a concrete failing table. -/
theorem error_wrapped_with_stage_witness :
    (wrapMsg insufficientColumnsMsg = wrapMsg insufficientColumnsMsg ∨
        wrapMsg insufficientColumnsMsg = wrapMsg insufficientSamplesMsg) ∧
      wrapMsg insufficientColumnsMsg ≠ wrapMsg insufficientSamplesMsg :=
  error_wrapped_with_stage oneColTable (wrapMsg insufficientColumnsMsg)
    (by decide)

/-- C9: in every successful result record, `train_size + test_size`
equals `rows_after_cleaning`, which is at most `total_rows`. -/
theorem result_sizes_partition (t : Table) (r : Results)
    (h : processTable t = Except.ok r) :
    r.dataset_info.train_size + r.dataset_info.test_size =
        r.dataset_info.rows_after_cleaning ∧
      r.dataset_info.rows_after_cleaning ≤ r.dataset_info.total_rows := by
  obtain ⟨_, _, hr⟩ := processTable_ok_inv t r h
  subst hr
  simp only [results]
  constructor
  · rw [X_train_length, X_test_length, Xmat_length]
    have := trainSize_le (cleanRows t).length
    omega
  · exact List.length_filter_le _ _

/-- Witness for C9 at a concrete passing table. -/
theorem result_sizes_partition_witness :
    wRes.dataset_info.train_size + wRes.dataset_info.test_size =
        wRes.dataset_info.rows_after_cleaning ∧
      wRes.dataset_info.rows_after_cleaning ≤ wRes.dataset_info.total_rows :=
  result_sizes_partition wTable wRes processTable_wTable_ok

/-- C10: in every successful result record of a table with distinct
numeric column names (a loader invariant), the target column is not among
the feature names, `feature_columns` counts the feature names, and there
is at least one feature. -/
theorem result_features_target (t : Table) (r : Results)
    (hnd : (numericNames t).Nodup) (h : processTable t = Except.ok r) :
    r.dataset_info.target_column ∉ r.dataset_info.feature_names ∧
      r.dataset_info.feature_columns = r.dataset_info.feature_names.length ∧
      1 ≤ r.dataset_info.feature_columns := by
  obtain ⟨h2, _, hr⟩ := processTable_ok_inv t r h
  subst hr
  have hne : numericNames t ≠ [] := by
    intro he
    rw [he] at h2
    simp at h2
  simp only [results]
  refine ⟨?_, ?_, ?_⟩
  · unfold feature_columns target_column
    rw [← dropLast_append_getLastD (numericNames t) hne ""] at hnd
    intro hmem
    exact (List.nodup_append.mp hnd).2.2 hmem (List.mem_singleton_self _)
  · trivial
  · unfold feature_columns
    rw [List.length_dropLast]
    omega

/-- Witness for C10 at a concrete passing table. -/
theorem result_features_target_witness :
    (numericNames wTable).Nodup ∧
      (wRes.dataset_info.target_column ∉ wRes.dataset_info.feature_names ∧
        wRes.dataset_info.feature_columns =
          wRes.dataset_info.feature_names.length ∧
        1 ≤ wRes.dataset_info.feature_columns) :=
  ⟨by decide, result_features_target wTable wRes (by decide) processTable_wTable_ok⟩

end MLRunner
